import Mathlib

/-!
# haveibeenpwned client: validation, dispatch and error normalisation

A shallow embedding of `haveibeenpwned.go`.  Go strings are Lean strings
(valid UTF-8 only); `len(s)` is the UTF-8 byte length `s.utf8ByteSize`, while
`s.length` counts characters.  Go `int` is a 64-bit integer carried in `Int`.
Packages outside the repository (net/mail, x/net/idna, encoding/json, net/url,
net/http and unicode case tables) are the fields of `Deps`; every general
theorem holds for all of their behaviours.
-/

namespace Haveibeenpwned

/-! ## Constants -/

def UserAgent : String := "haveibeenpwned-client/v0.1"
def Accept : String := "application/json"
def Endpoint : String := "https://haveibeenpwned.com/api/v3/"
def useAccessKey : String := "useAccessKey"

deriving instance DecidableEq for Except

/-! ## strconv.Atoi (64-bit `int`) -/

/-- Error kinds of strconv.NumError. -/
inductive NumError where
  | ErrSyntax
  | ErrRange
deriving DecidableEq, Repr

def maxUint64 : Nat := 2 ^ 64 - 1

/-- Decimal value of an ASCII digit. -/
def digitVal (c : Char) : Nat := c.toNat - 48

/-- Digit loop of the fast path of Atoi: `n = n*10 + int(ch)`, a byte that is
not a digit is a syntax error. -/
def atoiFast : List Char → Nat → Option Nat
  | [], n => some n
  | c :: cs, n => if c.isDigit then atoiFast cs (n * 10 + digitVal c) else none

/-- Digit loop of `strconv.ParseUint(s, 10, 64)`: it returns as soon as the
value overflows, before the remaining bytes are looked at. -/
def parseUintLoop : List Char → Nat → Nat × Option NumError
  | [], n => (n, none)
  | c :: cs, n =>
    if !c.isDigit then (0, some .ErrSyntax)
    else if n ≥ maxUint64 / 10 + 1 then (maxUint64, some .ErrRange)
    else
      let n10 := n * 10
      let n1 := (n10 + digitVal c) % 2 ^ 64
      if n1 < n10 ∨ n1 > maxUint64 then (maxUint64, some .ErrRange)
      else parseUintLoop cs n1

/-- Go `strconv.ParseUint(s, 10, 64)`. -/
def ParseUint (s : List Char) : Nat × Option NumError :=
  if s = [] then (0, some .ErrSyntax) else parseUintLoop s 0

/-- Go `strconv.ParseInt(s, 10, 0)` with a 64-bit `int`. -/
def ParseInt (s : List Char) : Int × Option NumError :=
  match s with
  | [] => (0, some .ErrSyntax)
  | c :: rest =>
    let neg := c = '-'
    let body := if c = '+' ∨ c = '-' then rest else s
    match ParseUint body with
    | (_, some .ErrSyntax) => (0, some .ErrSyntax)
    | (un, _) =>
      if !neg ∧ un ≥ 2 ^ 63 then ((2 : Int) ^ 63 - 1, some .ErrRange)
      else if neg ∧ un > 2 ^ 63 then (-(2 : Int) ^ 63, some .ErrRange)
      else (if neg then -(un : Int) else (un : Int), none)

/-- Go `strconv.Atoi(s)`: the value and the error (`none` is a nil error). -/
def Atoi (s : String) : Int × Option NumError :=
  if 0 < s.utf8ByteSize ∧ s.utf8ByteSize < 19 then
    match s.data with
    | [] => (0, some .ErrSyntax)
    | c :: rest =>
      let body := if c = '-' ∨ c = '+' then rest else s.data
      if body = [] then (0, some .ErrSyntax)
      else
        match atoiFast body 0 with
        | none => (0, some .ErrSyntax)
        | some n => (if c = '-' then -(n : Int) else (n : Int), none)
  else ParseInt s.data

/-! ## http.Header -/

/-- Bytes allowed in a header field name (textproto `validHeaderFieldByte`):
letters, digits and the token punctuation of RFC 7230. -/
def validHeaderFieldByte (c : Char) : Bool :=
  c.isAlphanum ||
    [33, 35, 36, 37, 38, 39, 42, 43, 45, 46, 94, 95, 96, 124, 126].contains c.toNat

/-- Canonicalisation loop: upper case at the start and after each dash, lower
case elsewhere. -/
def canonLoop : Bool → List Char → List Char
  | _, [] => []
  | upper, c :: cs =>
    let c1 := if upper && c.isLower then Char.ofNat (c.toNat - 32)
      else if !upper && c.isUpper then Char.ofNat (c.toNat + 32)
      else c
    c1 :: canonLoop (c1 = '-') cs

/-- Go `textproto.CanonicalMIMEHeaderKey`: a key holding a byte that is not
valid in a field name is returned unchanged. -/
def CanonicalMIMEHeaderKey (s : String) : String :=
  if s.data.all validHeaderFieldByte then String.mk (canonLoop true s.data) else s

/-- Go `http.Header`, a map from canonical key to its values, kept as an
association list with at most one entry per key. -/
abbrev Header := List (String × List String)

/-- Go `Header.Get`: first value stored under the canonical form of the key,
the empty string when there is none. -/
def Header.Get (h : Header) (key : String) : String :=
  match h.lookup (CanonicalMIMEHeaderKey key) with
  | some (v :: _) => v
  | _ => ""

/-- Go `Header.Set`: the canonical key is bound to the single value. -/
def Header.Set (h : Header) (key value : String) : Header :=
  (CanonicalMIMEHeaderKey key, [value]) ::
    h.filter (fun kv => kv.1 ≠ CanonicalMIMEHeaderKey key)

/-- Whether the map has an entry for the key. -/
def Header.Has (h : Header) (key : String) : Bool :=
  (h.lookup (CanonicalMIMEHeaderKey key)).isSome

/-! ## Records -/

/-- Go `http.Response`, reduced to what the client reads. -/
structure Response where
  StatusCode : Int
  Header : Header
  Body : String
deriving DecidableEq, Repr

/-- The error record of the client. -/
structure HIBPErrorResponse where
  Message : String
  Description : String
  Code : Int
  RetryAfter : Int
deriving DecidableEq, Repr

/-- What encoding/json can store in a fresh `HIBPErrorResponse`: only the
fields tagged `message` and `statusCode`; `Description` and `RetryAfter` are
tagged `-` and stay zero. -/
structure ErrorJSON where
  message : String
  statusCode : Int
deriving DecidableEq, Repr

/-- The record allocated by the decoder for a JSON object. -/
def ErrorJSON.toRecord (j : ErrorJSON) : HIBPErrorResponse :=
  { Message := j.message, Description := "", Code := j.statusCode, RetryAfter := 0 }

/-! ## A JSON reader for error bodies

encoding/json is outside the repository and is a field of `Deps`.  The
reader below follows `json.NewDecoder(body).Decode(&ans)` for
`ans *HIBPErrorResponse` and serves to evaluate the client on concrete bodies.
It reads the first JSON value of the body and ignores what follows it, as a
Decoder does.  Member names are matched exactly or up to ASCII case; the error
text is a short tag, not the wording of encoding/json. -/

/-- JSON values; a number keeps its literal. -/
inductive JSON where
  | null
  | bool (b : Bool)
  | number (lit : List Char) (integral : Bool)
  | string (s : String)
  | array (items : List JSON)
  | object (members : List (String × JSON))

def isSpace (c : Char) : Bool := c = ' ' || c = '\t' || c = '\r' || c = '\n'

def skipSpace : List Char → List Char
  | [] => []
  | c :: cs => if isSpace c then skipSpace cs else c :: cs

def hexVal (c : Char) : Option Nat :=
  if c.isDigit then some (c.toNat - 48)
  else if 'a' ≤ c ∧ c ≤ 'f' then some (c.toNat - 87)
  else if 'A' ≤ c ∧ c ≤ 'F' then some (c.toNat - 55)
  else none

/-- Four hex digits of a `\u` escape. -/
def hex4 : List Char → Option (Nat × List Char)
  | a :: b :: c :: d :: rest =>
    match hexVal a, hexVal b, hexVal c, hexVal d with
    | some x, some y, some z, some w => some (((x * 16 + y) * 16 + z) * 16 + w, rest)
    | _, _, _, _ => none
  | _ => none

def unescape (c : Char) : Option Char :=
  if c = '"' ∨ c = '\\' ∨ c = '/' then some c
  else if c = 'b' then some (Char.ofNat 8)
  else if c = 'f' then some (Char.ofNat 12)
  else if c = 'n' then some '\n'
  else if c = 'r' then some '\r'
  else if c = 't' then some '\t'
  else none

/-- Rune of a `\u` escape with value `n`, followed by `rest`: a surrogate pair
is combined, a lone surrogate becomes U+FFFD. -/
def escapedRune (n : Nat) (rest : List Char) : Char × List Char :=
  if 0xD800 ≤ n ∧ n < 0xE000 then
    match rest with
    | '\\' :: 'u' :: more =>
      match hex4 more with
      | some (m, after) =>
        if n < 0xDC00 ∧ 0xDC00 ≤ m ∧ m < 0xE000 then
          (Char.ofNat (0x10000 + (n - 0xD800) * 1024 + (m - 0xDC00)), after)
        else (Char.ofNat 0xFFFD, rest)
      | none => (Char.ofNat 0xFFFD, rest)
    | _ => (Char.ofNat 0xFFFD, rest)
  else (Char.ofNat n, rest)

/-- Body of a string literal after the opening quote. -/
def readString : Nat → List Char → List Char → Option (String × List Char)
  | 0, _, _ => none
  | fuel + 1, acc, cs =>
    match cs with
    | [] => none
    | '"' :: rest => some (String.mk acc.reverse, rest)
    | '\\' :: 'u' :: rest =>
      match hex4 rest with
      | some (n, rest1) =>
        let p := escapedRune n rest1
        readString fuel (p.1 :: acc) p.2
      | none => none
    | '\\' :: e :: rest =>
      match unescape e with
      | some c => readString fuel (c :: acc) rest
      | none => none
    | c :: rest => if c.toNat < 32 then none else readString fuel (c :: acc) rest

def takeDigits : List Char → List Char × List Char
  | [] => ([], [])
  | c :: cs =>
    if c.isDigit then ((takeDigits cs).1.cons c, (takeDigits cs).2) else ([], c :: cs)

/-- A number literal: `-? (0 | [1-9][0-9]*) (. [0-9]+)? ([eE] [+-]? [0-9]+)?`.
The flag tells whether it has neither fraction nor exponent. -/
def readNumber (cs : List Char) : Option (List Char × Bool × List Char) :=
  let sign := cs.takeWhile (fun c => c = '-') |>.take 1
  let cs1 := cs.drop sign.length
  let ip : Option (List Char × List Char) :=
    match cs1 with
    | '0' :: rest => some (['0'], rest)
    | c :: _ => if c.isDigit then some (takeDigits cs1) else none
    | [] => none
  match ip with
  | none => none
  | some (ds, rest) =>
    let fr : Option (List Char × List Char) :=
      match rest with
      | '.' :: more =>
        if (takeDigits more).1 = [] then none
        else some ('.' :: (takeDigits more).1, (takeDigits more).2)
      | _ => some ([], rest)
    match fr with
    | none => none
    | some (fs, rest2) =>
      let ex : Option (List Char × List Char) :=
        match rest2 with
        | e :: more =>
          if e = 'e' ∨ e = 'E' then
            let sg := more.takeWhile (fun c => c = '+' ∨ c = '-') |>.take 1
            let more1 := more.drop sg.length
            if (takeDigits more1).1 = [] then none
            else some (e :: sg ++ (takeDigits more1).1, (takeDigits more1).2)
          else some ([], rest2)
        | [] => some ([], rest2)
      match ex with
      | none => none
      | some (es, rest3) => some (sign ++ ds ++ fs ++ es, fs = [] ∧ es = [], rest3)

mutual
/-- One JSON value at the head of the input (leading space skipped). -/
def readValue : Nat → List Char → Option (JSON × List Char)
  | 0, _ => none
  | fuel + 1, cs =>
    match skipSpace cs with
    | 'n' :: 'u' :: 'l' :: 'l' :: rest => some (.null, rest)
    | 't' :: 'r' :: 'u' :: 'e' :: rest => some (.bool true, rest)
    | 'f' :: 'a' :: 'l' :: 's' :: 'e' :: rest => some (.bool false, rest)
    | '"' :: rest =>
      match readString (rest.length + 1) [] rest with
      | some (s, rest1) => some (.string s, rest1)
      | none => none
    | '[' :: rest =>
      match skipSpace rest with
      | ']' :: rest1 => some (.array [], rest1)
      | _ =>
        match readItems fuel rest with
        | some (xs, rest1) => some (.array xs, rest1)
        | none => none
    | '{' :: rest =>
      match skipSpace rest with
      | '}' :: rest1 => some (.object [], rest1)
      | _ =>
        match readMembers fuel rest with
        | some (ms, rest1) => some (.object ms, rest1)
        | none => none
    | other =>
      match readNumber other with
      | some (lit, integral, rest) => some (.number lit integral, rest)
      | none => none
/-- Items of a non-empty array, up to and including the closing bracket. -/
def readItems : Nat → List Char → Option (List JSON × List Char)
  | 0, _ => none
  | fuel + 1, cs =>
    match readValue fuel cs with
    | none => none
    | some (v, rest) =>
      match skipSpace rest with
      | ',' :: rest1 =>
        match readItems fuel rest1 with
        | some (vs, rest2) => some (v :: vs, rest2)
        | none => none
      | ']' :: rest1 => some ([v], rest1)
      | _ => none
/-- Members of a non-empty object, up to and including the closing brace. -/
def readMembers : Nat → List Char → Option (List (String × JSON) × List Char)
  | 0, _ => none
  | fuel + 1, cs =>
    match skipSpace cs with
    | '"' :: rest =>
      match readString (rest.length + 1) [] rest with
      | none => none
      | some (k, rest1) =>
        match skipSpace rest1 with
        | ':' :: rest2 =>
          match readValue fuel rest2 with
          | none => none
          | some (v, rest3) =>
            match skipSpace rest3 with
            | ',' :: rest4 =>
              match readMembers fuel rest4 with
              | some (ms, rest5) => some ((k, v) :: ms, rest5)
              | none => none
            | '}' :: rest4 => some ([(k, v)], rest4)
            | _ => none
        | _ => none
    | _ => none
end

/-- Whether a member name selects the struct field with the given json tag:
exact match or ASCII case folding. -/
def keyMatches (key tag : String) : Bool :=
  key.data.map Char.toLower = tag.data.map Char.toLower

/-- Values of the members that select the field with the given tag, in
order, nulls left out (a null leaves a field as it is). -/
def membersOf (ms : List (String × JSON)) (tag : String) : List JSON :=
  (ms.filter fun m => keyMatches m.1 tag && (match m.2 with | .null => false | _ => true)).map
    fun m => m.2

/-- The field after its members were stored one after the other: the last
value wins; one value of the wrong JSON type fails the decode (`none`). -/
def fieldOf {α : Type} (conv : JSON → Option α) (dflt : α) (ms : List (String × JSON))
    (tag : String) : Option α :=
  (membersOf ms tag).foldl
    (fun acc v => match acc, conv v with
      | some _, some a => some a
      | _, _ => none)
    (some dflt)

def asString : JSON → Option String
  | .string s => some s
  | _ => none

/-- An integer literal within the 64-bit range. -/
def asInt : JSON → Option Int
  | .number lit true =>
    match ParseInt lit with
    | (n, none) => some n
    | _ => none
  | _ => none

def asBool : JSON → Option Bool
  | .bool b => some b
  | _ => none

/-- An array of strings; a null item is the empty string. -/
def asStrings : JSON → Option (Option (List String))
  | .array items =>
    (items.foldr
      (fun v acc => match v, acc with
        | .string s, some l => some (s :: l)
        | .null, some l => some ("" :: l)
        | _, _ => none)
      (some [])).map some
  | _ => none

/-- The reader: `.error` for a failed decode, `.ok none` for the literal
`null` (the pointer stays nil), `.ok (some j)` for an object. -/
def jsonDecodeError (body : String) : Except String (Option ErrorJSON) :=
  if skipSpace body.data = [] then .error "EOF"
  else
    match readValue (body.length + 1) body.data with
    | none => .error "invalid JSON"
    | some (.null, _) => .ok none
    | some (.object ms, _) =>
      match fieldOf asString "" ms "message", fieldOf asInt 0 ms "statusCode" with
      | some m, some c => .ok (some { message := m, statusCode := c })
      | _, _ => .error "json: cannot unmarshal into Go struct field"
    | some (_, _) => .error "json: cannot unmarshal into Go value"

/-! ## Result records and the packages the client depends on -/

/-- Breach record (`time.Time` fields are kept as their text). -/
structure Breach where
  Name : String := ""
  Title : String := ""
  Domain : String := ""
  BreachDate : String := ""
  AddedDate : String := ""
  ModifiedDate : String := ""
  PwnCount : Int := 0
  Description : String := ""
  LogoPath : String := ""
  DataClasses : Option (List String) := none
  IsVerified : Bool := false
  IsFabricated : Bool := false
  IsSensitive : Bool := false
  IsRetired : Bool := false
  IsSpamList : Bool := false
deriving DecidableEq, Repr

/-- Paste record. -/
structure Paste where
  Source : String := ""
  Id : String := ""
  Title : String := ""
  Date : String := ""
  EmailCount : Int := 0
deriving DecidableEq, Repr

/-- Go `error` values met in the client: a text error (`errors.New` and the
errors of library calls), or a `*HIBPErrorResponse` stored in the interface,
where `none` is the nil pointer. -/
inductive Error where
  | text (msg : String)
  | remote (e : Option HIBPErrorResponse)
deriving DecidableEq, Repr

/-- Go `http.Request`, reduced to what `request` sets; `URL` is the target
string handed to `http.NewRequestWithContext`. -/
structure Request where
  Method : String
  URL : String
  Header : Header
  Close : Bool
deriving DecidableEq, Repr

/-- Behaviour of the packages outside the repository.  A decoder of a success
body returns the value left in the destination and the error. -/
structure Deps where
  /-- Whether `mail.ParseAddress(value)` returns a nil error. -/
  ParseAddress : String → Bool
  /-- Go `idna.Punycode.ToASCII(domain)`. -/
  ToASCII : String → Except String String
  /-- Go `unicode.ToLower` on runes outside ASCII. -/
  ToLowerRune : Char → Char
  /-- Go `http.StatusText(code)`. -/
  StatusText : Int → String
  /-- Go `json.NewDecoder(body).Decode(&ans)` for `ans *HIBPErrorResponse`
  starting nil: the error text, or the pointer left in `ans`. -/
  DecodeError : String → Except String (Option ErrorJSON)
  DecodeBreaches : String → Option (List Breach) × Option String
  DecodeBreachPtrs : String → Option (List (Option Breach)) × Option String
  DecodeBreach : String → Option Breach × Option String
  DecodeDataClasses : String → Option (List String) × Option String
  DecodePastes : String → Option (List (Option Paste)) × Option String
  /-- The text `u.String()` of `u, err := baseURL.Parse(resource)`, or the error. -/
  baseURLParse : String → Except String String
  /-- Error of `http.NewRequestWithContext(ctx, "GET", target, nil)`, `none` when nil. -/
  NewRequest : String → Option String
  /-- Go `client.Do(req)`. -/
  Do : Request → Except String Response

/-! ## formatError -/

/-- Go `formatError`: the pointer it returns, `none` being nil. -/
def formatError (d : Deps) (r : Response) : Option HIBPErrorResponse :=
  let ans : Option HIBPErrorResponse :=
    match d.DecodeError r.Body with
    | .error err =>
      some { Message := err, Description := d.StatusText r.StatusCode,
             Code := r.StatusCode, RetryAfter := 0 }
    | .ok ptr => ptr.map ErrorJSON.toRecord
  let retryAfter := (Atoi (r.Header.Get "retry-after")).1
  if retryAfter > 0 then ans.map (fun a => { a with RetryAfter := retryAfter }) else ans

/-- Go `(*HIBPErrorResponse).Error`, the text of
`fmt.Sprintf("%d: %s %s %d", e.Code, e.Description, e.Message, e.RetryAfter)`.
With a nil receiver the field reads dereference nil and the call panics, which
is `none` here. -/
def HIBPErrorResponse.Error (e : Option HIBPErrorResponse) : Option String :=
  e.map fun r =>
    toString r.Code ++ ": " ++ r.Description ++ " " ++ r.Message ++ " " ++ toString r.RetryAfter

/-! ## validateEmail -/

section Pattern
open RegularExpression

/-- A character class as an alternation of its members. -/
def charClass (cs : List Char) : RegularExpression Char :=
  cs.foldr (fun c r => char c + r) 0

/-- Members of `a-z0-9`. -/
def alnumLower : List Char :=
  "abcdefghijklmnopqrstuvwxyz".data ++ "0123456789".data

/-- The class `[_\-a-z0-9]`. -/
def clsWide : RegularExpression Char := charClass ('_' :: '-' :: alnumLower)

/-- The class `[\-a-z0-9]`. -/
def clsNarrow : RegularExpression Char := charClass ('-' :: alnumLower)

/-- The repetition `r+`. -/
def plus1 (r : RegularExpression Char) : RegularExpression Char := r * star r

/-- The repetition `r{0,n}`. -/
def upTo (r : RegularExpression Char) : Nat → RegularExpression Char
  | 0 => 1
  | n + 1 => 1 + r * upTo r n

/-- The repetition `r{lo,hi}`, for `lo ≤ hi`. -/
def repeatRange (r : RegularExpression Char) : Nat → Nat → RegularExpression Char
  | 0, hi => upTo r hi
  | lo + 1, hi => r * repeatRange r lo (hi - 1)

/-- The pattern `Domain`, between its anchors:
`(?:[_\-a-z0-9]+\.)*([\-a-z0-9]+\.)[\-a-z0-9]{2,63}`. -/
def Domain : RegularExpression Char :=
  star (plus1 clsWide * char '.') * ((plus1 clsNarrow * char '.') * repeatRange clsNarrow 2 63)

/-- Go `rDomain.MatchString(s)`: the pattern is anchored at both ends, so the
whole string has to match. -/
def rDomainMatchString (s : String) : Bool := Domain.rmatch s.data

end Pattern

/-- Go `strings.Split(s, sep)` for a separator of one character. -/
def Split (sep : Char) : List Char → List (List Char)
  | [] => [[]]
  | c :: cs =>
    if c = sep then [] :: Split sep cs
    else
      match Split sep cs with
      | p :: ps => (c :: p) :: ps
      | [] => [[c]]

/-- Go `len` of a string given by its characters: the number of UTF-8 bytes. -/
def byteLen (cs : List Char) : Nat := (String.mk cs).utf8ByteSize

/-- Go `strings.ToLower`. -/
def ToLower (d : Deps) (s : List Char) : String :=
  String.mk (s.map fun c =>
    if c.toNat < 128 then (if c.isUpper then Char.ofNat (c.toNat + 32) else c)
    else d.ToLowerRune c)

/-- Go `validateEmail`: the error, `none` being nil. -/
def validateEmail (d : Deps) (value : String) : Option Error :=
  if value.utf8ByteSize < 6 ∨ value.utf8ByteSize > 150 then
    some (.text "email length must be from 6 to 150")
  else if !d.ParseAddress value then
    some (.text "email not valid")
  else
    match Split '@' value.data with
    | [loc, domain] =>
      if byteLen loc > 64 then
        some (.text "length of local part should be max 64 characters")
      else if ' ' ∈ loc then
        some (.text "not an email pattern (bad local part)")
      else if !rDomainMatchString (ToLower d domain) then
        match d.ToASCII (String.mk domain) with
        | .error _ => some (.text "not an email pattern (bad domain)")
        | .ok punyEncoded =>
          if !rDomainMatchString punyEncoded then
            some (.text "not an email pattern (bad domain)")
          else none
      else none
    | _ => some (.text "email cannot split to local and domain parts")

/-! ## The client and `request` -/

/-- Settings of the `http.Client` built by `New`. -/
structure Client where
  TimeoutSeconds : Nat
  MaxIdleConns : Nat
  MaxIdleConnsPerHost : Nat
deriving DecidableEq, Repr

structure HaveIBeenPwned where
  accessKey : String
  client : Client
deriving DecidableEq, Repr

/-- Go `New`. -/
def New (accessKey : String) : HaveIBeenPwned :=
  { accessKey := accessKey,
    client := { TimeoutSeconds := 10, MaxIdleConns := 20, MaxIdleConnsPerHost := 20 } }

/-- Go `url.Values`, a map from key to values kept as an association list;
`none` of `Option Values` is the nil map. -/
abbrev Values := List (String × List String)

/-- Go `Values.Set`. -/
def Values.Set (v : Values) (key value : String) : Values :=
  (key, [value]) :: v.filter (fun kv => kv.1 ≠ key)

def hexUpper (n : Nat) : Char :=
  if n < 10 then Char.ofNat (48 + n) else Char.ofNat (55 + n)

/-- One byte under `url.QueryEscape`: letters, digits and `-_.~` are kept, a
space becomes `+`, any other byte becomes `%XX`. -/
def escapeByte (b : Nat) : List Char :=
  let c := Char.ofNat b
  if b < 128 ∧ (c.isAlphanum ∨ c = '-' ∨ c = '_' ∨ c = '.' ∨ c = '~') then [c]
  else if c = ' ' then ['+']
  else ['%', hexUpper (b / 16), hexUpper (b % 16)]

/-- Go `url.QueryEscape`. -/
def QueryEscape (s : String) : String :=
  String.mk (s.data.flatMap fun c =>
    (String.utf8EncodeChar c).flatMap fun b => escapeByte b.toNat)

/-- The order of Go strings (bytes compared one by one), which on UTF-8 is the
order of the code points. -/
def stringLE : List Char → List Char → Bool
  | [], _ => true
  | _ :: _, [] => false
  | a :: as, b :: bs => a.toNat < b.toNat || (a = b && stringLE as bs)

/-- Go `Values.Encode`: `key=value` pairs joined by `&`, keys sorted, the
empty string for an empty map. -/
def Values.Encode (v : Values) : String :=
  String.intercalate "&"
    ((v.insertionSort (fun a b => stringLE a.1.data b.1.data = true)).flatMap fun kv =>
      kv.2.map fun val => QueryEscape kv.1 ++ "=" ++ QueryEscape val)

/-- Go `strings.Contains`. -/
def Contains (s sub : String) : Bool :=
  s.data.tails.any fun t => sub.data.isPrefixOf t

/-- Go `strconv.FormatBool`. -/
def FormatBool (b : Bool) : String := if b then "true" else "false"

/-- The local `target` of `request` once the resource resolved to `u`. -/
def target (u : String) (params : Option Values) : String :=
  match params with
  | some p => u ++ "?" ++ p.Encode
  | none => u

/-- Go `request`.  The second component lists the requests handed to
`client.Do`, in order; the context is not modelled. -/
def request (d : Deps) (o : HaveIBeenPwned) (resource : String) (params : Option Values)
    (opt : List String) : Except Error Response × List Request :=
  match d.baseURLParse resource with
  | .error err => (.error (.text err), [])
  | .ok u =>
    match d.NewRequest (target u params) with
    | some err => (.error (.text err), [])
    | none =>
      let req : Request := { Method := "GET", URL := target u params, Header := [], Close := false }
      let req := { req with Header := req.Header.Set "accept" Accept }
      let req := { req with Header := req.Header.Set "user-agent" UserAgent }
      let opts := String.intercalate "," opt
      let req :=
        if opts.utf8ByteSize > 0 ∧ Contains opts useAccessKey then
          { req with Header := req.Header.Set "hibp-api-key" o.accessKey }
        else req
      let req := { req with Close := true }
      match d.Do req with
      | .ok resp => (.ok resp, [req])
      | .error err => (.error (.text err), [req])

/-! ## The five operations -/

/-- What an operation returns, `(value, err)`, with the requests it handed to
the transport. -/
structure Outcome (α : Type) where
  value : α
  err : Option Error
  sent : List Request

/-- Go `GetBreachedAccount`. -/
def GetBreachedAccount (d : Deps) (o : HaveIBeenPwned) (email domain : String)
    (truncateResponse includeUnverified : Bool) : Outcome (Option (List Breach)) :=
  match validateEmail d email with
  | some err => { value := none, err := some err, sent := [] }
  | none =>
    let params : Values := []
    let params := if domain ≠ "" then params.Set "domain" domain else params
    let params := params.Set "truncateResponse" (FormatBool truncateResponse)
    let params := params.Set "includeUnverified" (FormatBool includeUnverified)
    match request d o ("breachedaccount/" ++ email) (some params) [useAccessKey] with
    | (.error err, sent) => { value := none, err := some err, sent := sent }
    | (.ok resp, sent) =>
      if resp.StatusCode ≠ 200 then
        { value := none, err := some (.remote (formatError d resp)), sent := sent }
      else
        { value := (d.DecodeBreaches resp.Body).1,
          err := (d.DecodeBreaches resp.Body).2.map .text, sent := sent }

/-- Go `GetBreaches`. -/
def GetBreaches (d : Deps) (o : HaveIBeenPwned) (domain : String) :
    Outcome (Option (List (Option Breach))) :=
  let params : Values := []
  let params := if domain ≠ "" then params.Set "domain" domain else params
  match request d o "breaches" (some params) [] with
  | (.error err, sent) => { value := none, err := some err, sent := sent }
  | (.ok resp, sent) =>
    if resp.StatusCode ≠ 200 then
      { value := none, err := some (.remote (formatError d resp)), sent := sent }
    else
      { value := (d.DecodeBreachPtrs resp.Body).1,
        err := (d.DecodeBreachPtrs resp.Body).2.map .text, sent := sent }

/-- Go `GetBreachedSite`. -/
def GetBreachedSite (d : Deps) (o : HaveIBeenPwned) (site : String) : Outcome (Option Breach) :=
  match request d o ("breach/" ++ site) none [] with
  | (.error err, sent) => { value := none, err := some err, sent := sent }
  | (.ok resp, sent) =>
    if resp.StatusCode ≠ 200 then
      { value := none, err := some (.remote (formatError d resp)), sent := sent }
    else
      { value := (d.DecodeBreach resp.Body).1,
        err := (d.DecodeBreach resp.Body).2.map .text, sent := sent }

/-- Go `GetDataClasses`. -/
def GetDataClasses (d : Deps) (o : HaveIBeenPwned) : Outcome (Option (List String)) :=
  match request d o "dataclasses" none [] with
  | (.error err, sent) => { value := none, err := some err, sent := sent }
  | (.ok resp, sent) =>
    if resp.StatusCode ≠ 200 then
      { value := none, err := some (.remote (formatError d resp)), sent := sent }
    else
      { value := (d.DecodeDataClasses resp.Body).1,
        err := (d.DecodeDataClasses resp.Body).2.map .text, sent := sent }

/-- Go `GetPastedAccount`. -/
def GetPastedAccount (d : Deps) (o : HaveIBeenPwned) (email : String) :
    Outcome (Option (List (Option Paste))) :=
  match validateEmail d email with
  | some err => { value := none, err := some err, sent := [] }
  | none =>
    match request d o ("pasteaccount/" ++ email) none [useAccessKey] with
    | (.error err, sent) => { value := none, err := some err, sent := sent }
    | (.ok resp, sent) =>
      if resp.StatusCode ≠ 200 then
        { value := none, err := some (.remote (formatError d resp)), sent := sent }
      else
        { value := (d.DecodePastes resp.Body).1,
          err := (d.DecodePastes resp.Body).2.map .text, sent := sent }

/-! ## Collaborators for concrete runs

`mock` fixes one behaviour of every package so that the client can be run on
concrete inputs: the transport is the mock server of `haveibeenpwned_test.go`
mounted at `Endpoint`, bodies are read by the JSON reader above, and the
mailbox, IDNA and URL functions answer on the plain inputs described at each
definition, where they agree with the Go packages. -/

/-- Go `http.StatusText`. -/
def StatusText (code : Int) : String :=
  match [(100, "Continue"), (101, "Switching Protocols"), (102, "Processing"),
    (103, "Early Hints"), (200, "OK"), (201, "Created"), (202, "Accepted"),
    (203, "Non-Authoritative Information"), (204, "No Content"), (205, "Reset Content"),
    (206, "Partial Content"), (207, "Multi-Status"), (208, "Already Reported"),
    (226, "IM Used"), (300, "Multiple Choices"), (301, "Moved Permanently"), (302, "Found"),
    (303, "See Other"), (304, "Not Modified"), (305, "Use Proxy"),
    (307, "Temporary Redirect"), (308, "Permanent Redirect"), (400, "Bad Request"),
    (401, "Unauthorized"), (402, "Payment Required"), (403, "Forbidden"), (404, "Not Found"),
    (405, "Method Not Allowed"), (406, "Not Acceptable"),
    (407, "Proxy Authentication Required"), (408, "Request Timeout"), (409, "Conflict"),
    (410, "Gone"), (411, "Length Required"), (412, "Precondition Failed"),
    (413, "Request Entity Too Large"), (414, "Request URI Too Long"),
    (415, "Unsupported Media Type"), (416, "Requested Range Not Satisfiable"),
    (417, "Expectation Failed"), (418, "I\x27m a teapot"), (421, "Misdirected Request"),
    (422, "Unprocessable Entity"), (423, "Locked"), (424, "Failed Dependency"),
    (425, "Too Early"), (426, "Upgrade Required"), (428, "Precondition Required"),
    (429, "Too Many Requests"), (431, "Request Header Fields Too Large"),
    (451, "Unavailable For Legal Reasons"), (500, "Internal Server Error"),
    (501, "Not Implemented"), (502, "Bad Gateway"), (503, "Service Unavailable"),
    (504, "Gateway Timeout"), (505, "HTTP Version Not Supported"),
    (506, "Variant Also Negotiates"), (507, "Insufficient Storage"), (508, "Loop Detected"),
    (510, "Not Extended"), (511, "Network Authentication Required")].lookup code with
  | some text => text
  | none => ""

/-- The `atext` characters of net/mail: visible ASCII without the specials
`()<>[]:;@\,"` and without the dot, and every character outside ASCII. -/
def isAtext (c : Char) : Bool :=
  (33 ≤ c.toNat && c.toNat ≤ 126 &&
    !([40, 41, 60, 62, 91, 93, 58, 59, 64, 92, 44, 34, 46].contains c.toNat)) ||
  128 ≤ c.toNat

/-- A dot-atom: `atext` runs separated by single dots. -/
def isDotAtom (cs : List Char) : Bool :=
  (Split '.' cs).all fun run => run ≠ [] && run.all isAtext

/-- A quoted string without escapes: `qtext` (visible ASCII but the quote and
the backslash, or a character outside ASCII), spaces and tabs between quotes,
at least one of them. -/
def isQuoted (cs : List Char) : Bool :=
  match cs with
  | '"' :: rest =>
    match rest.reverse with
    | '"' :: body =>
      body ≠ [] && body.all fun c =>
        c = ' ' || c = '\t' || (33 ≤ c.toNat && c.toNat ≤ 126 && c ≠ '"' && c ≠ '\\') ||
          128 ≤ c.toNat
    | _ => false
  | _ => false

/-- The bare addr-spec `local@domain` with a dot-atom or quoted-string local
part and a dot-atom domain, which `mail.ParseAddress` accepts.  The other
forms net/mail accepts (display name, escapes or `@` inside quotes, domain
literal, comments, surrounding space) are refused here. -/
def plainParseAddress (value : String) : Bool :=
  match Split '@' value.data with
  | [loc, domain] => (isDotAtom loc || isQuoted loc) && isDotAtom domain
  | _ => false

/-- On an ASCII domain with no label starting with `xn--`, the raw Punycode
profile of x/net/idna returns the domain unchanged.  Other domains are an
error here. -/
def plainToASCII (domain : String) : Except String String :=
  if domain.data.all (fun c => c.toNat < 128) ∧
      (Split '.' domain.data).all (fun l => !("xn--".data.isPrefixOf l)) then
    .ok domain
  else .error "idna: domain outside the plain ASCII case"

def plainPathChar (c : Char) : Bool :=
  c.isAlphanum || c = '@' || c = '.' || c = '-' || c = '_'

/-- A resource made of non-empty segments of letters, digits and `@.-_`, none
of them `.` or `..`, resolves against the base to the base followed by the
resource.  Other resources are an error here. -/
def plainBaseURLParse (resource : String) : Except String String :=
  if (Split '/' resource.data).all
      (fun seg => seg ≠ [] && seg.all plainPathChar && seg ≠ ['.'] && seg ≠ ['.', '.']) then
    .ok (Endpoint ++ resource)
  else .error "parse: resource outside the plain path case"

/-- The mock server of the tests: the five handlers and the 404 of the
multiplexer for any other path.  The query string takes no part in routing. -/
def mockServer (req : Request) : Except String Response :=
  if !Endpoint.data.isPrefixOf req.URL.data then .error "dial: unknown host"
  else
    let path := String.mk ((req.URL.data.drop Endpoint.length).takeWhile fun c => c ≠ '?')
    let ok (body : String) : Except String Response :=
      .ok { StatusCode := 200, Header := [], Body := body }
    if path = "breachedaccount/info@example.com" then
      ok ("[\x7b\"Name\":\"Adobe\"\x7d,\x7b\"Name\":\"Apollo\"\x7d," ++
        "\x7b\"Name\":\"LeadHunter\"\x7d,\x7b\"Name\":\"VerificationsIO\"\x7d]")
    else if path = "breaches" then ok "[\x7b\"Name\": \"Adobe\"\x7d]"
    else if path = "breach/Adobe" then ok "\x7b\"Name\": \"Adobe\"\x7d"
    else if path = "dataclasses" then ok "[\"Account balances\",\"Age groups\"]"
    else if path = "pasteaccount/info@example.com" then
      ok ("[\x7b\"Source\":\"Pastebin\",\"Id\":\"Ab2ZYrq4\",\"EmailCount\":48\x7d," ++
        "\x7b\"Source\":\"Pastebin\",\"Id\":\"46g62dvD\",\"EmailCount\":1670\x7d]")
    else .ok { StatusCode := 404, Header := [], Body := "404 page not found\n" }

/-- A breach record from the members of an object (times are not checked
against RFC 3339). -/
def breachOf (ms : List (String × JSON)) : Option Breach :=
  match fieldOf asString "" ms "Name", fieldOf asString "" ms "Title",
    fieldOf asString "" ms "Domain", fieldOf asString "" ms "BreachDate",
    fieldOf asString "" ms "AddedDate", fieldOf asString "" ms "ModifiedDate",
    fieldOf asInt 0 ms "PwnCount", fieldOf asString "" ms "Description",
    fieldOf asString "" ms "LogoPath", fieldOf asStrings none ms "DataClasses",
    fieldOf asBool false ms "IsVerified", fieldOf asBool false ms "IsFabricated",
    fieldOf asBool false ms "IsSensitive", fieldOf asBool false ms "IsRetired",
    fieldOf asBool false ms "IsSpamList" with
  | some a, some b, some c, some e, some f, some g, some h, some i, some j, some k,
    some l, some m, some n, some p, some q =>
    some { Name := a, Title := b, Domain := c, BreachDate := e, AddedDate := f,
           ModifiedDate := g, PwnCount := h, Description := i, LogoPath := j,
           DataClasses := k, IsVerified := l, IsFabricated := m, IsSensitive := n,
           IsRetired := p, IsSpamList := q }
  | _, _, _, _, _, _, _, _, _, _, _, _, _, _, _ => none

def pasteOf (ms : List (String × JSON)) : Option Paste :=
  match fieldOf asString "" ms "Source", fieldOf asString "" ms "Id",
    fieldOf asString "" ms "Title", fieldOf asString "" ms "Date",
    fieldOf asInt 0 ms "EmailCount" with
  | some a, some b, some c, some e, some f =>
    some { Source := a, Id := b, Title := c, Date := e, EmailCount := f }
  | _, _, _, _, _ => none

/-- A pointer to a record: null is the nil pointer. -/
def ptrOf {α : Type} (rec : List (String × JSON) → Option α) : JSON → Option (Option α)
  | .null => some none
  | .object ms => (rec ms).map some
  | _ => none

/-- All items converted, or `none` when one fails. -/
def allOf {α : Type} (conv : JSON → Option α) (items : List JSON) : Option (List α) :=
  items.foldr
    (fun v acc => match conv v, acc with
      | some a, some l => some (a :: l)
      | _, _ => none)
    (some [])

/-- Decode a success body with a converter of its top value.  A failed decode
reports an error and no value (what Go leaves in a half-filled destination is
not followed). -/
def decodeWith {α : Type} (conv : JSON → Option (Option α)) (body : String) :
    Option α × Option String :=
  if skipSpace body.data = [] then (none, some "EOF")
  else
    match readValue (body.length + 1) body.data with
    | none => (none, some "invalid JSON")
    | some (v, _) =>
      match conv v with
      | some a => (a, none)
      | none => (none, some "json: cannot unmarshal")

def asArray {α : Type} (conv : JSON → Option α) : JSON → Option (Option (List α))
  | .null => some none
  | .array items => (allOf conv items).map some
  | _ => none

/-- An element of `[]Breach`: null leaves the zero record. -/
def breachValue : JSON → Option Breach
  | .null => some {}
  | .object ms => breachOf ms
  | _ => none

/-- The collaborators used for concrete runs.  `ToLowerRune` leaves a rune
outside ASCII as it is, which is exact for the runes that are not upper case;
`NewRequest` reports no error, the targets built from `plainBaseURLParse` and
`Values.Encode` being URLs that parse. -/
def mock : Deps where
  ParseAddress := plainParseAddress
  ToASCII := plainToASCII
  ToLowerRune := fun c => c
  StatusText := StatusText
  DecodeError := jsonDecodeError
  DecodeBreaches := decodeWith (asArray breachValue)
  DecodeBreachPtrs := decodeWith (asArray (ptrOf breachOf))
  DecodeBreach := decodeWith (ptrOf breachOf)
  DecodeDataClasses := decodeWith asStrings
  DecodePastes := decodeWith (asArray (ptrOf pasteOf))
  baseURLParse := plainBaseURLParse
  NewRequest := fun _ => none
  Do := mockServer

/-- The collaborators of `mock` with a server that answers every request with
the given response. -/
def answering (resp : Response) : Deps := { mock with Do := fun _ => .ok resp }

/-! ## Rules of the validator in the words of the specification -/

/-- A label character of rule 6: letter, digit, hyphen or underscore. -/
def specLabelChar (c : Char) : Bool := c.isAlphanum || c = '-' || c = '_'

/-- Rule 6 as worded: zero or more `label.` groups followed by a final label
of 2 to 63 characters, every label made of label characters. -/
def specDomainShape (s : List Char) : Bool :=
  match (Split '.' s).reverse with
  | [] => false
  | final :: groups =>
    decide (2 ≤ final.length ∧ final.length ≤ 63) && final.all specLabelChar &&
      groups.all fun g => decide (g ≠ []) && g.all specLabelChar

/-- Rules 1 to 5 as worded: length in [6,150], accepted by the mailbox parser,
exactly one `@`, local part at most 64 long and without a space. -/
def specRules1to5 (d : Deps) (value : String) : Bool :=
  decide (6 ≤ value.length ∧ value.length ≤ 150) && d.ParseAddress value &&
    decide (value.data.count '@' = 1) &&
    decide ((value.data.takeWhile fun c => c ≠ '@').length ≤ 64) &&
    !(value.data.takeWhile fun c => c ≠ '@').contains ' '

/-! ## Sample inputs -/

/-- A 429 with the documented error body and `retry-after: 5`. -/
def rateLimited : Response :=
  { StatusCode := 429, Header := [("Retry-After", ["5"])],
    Body := "\x7b\"message\":\"rate limited\",\"statusCode\":429\x7d" }

/-- A 429 with a plain-text body and `retry-after: 5`. -/
def rateLimitedText : Response :=
  { StatusCode := 429, Header := [("Retry-After", ["5"])], Body := "Too Many Requests" }

/-- A 503 whose body is the documented error object of a 429. -/
def relayed : Response :=
  { StatusCode := 503, Header := [],
    Body := "\x7b\"message\":\"rate limited\",\"statusCode\":429\x7d" }

/-- A 503 whose body is the JSON literal `null`. -/
def nullBody : Response :=
  { StatusCode := 503, Header := [("Retry-After", ["5"])], Body := "null" }

/-! ## Theorems: formatError -/

/-- When the decode fails, the fallback record is returned with the header
value stored whenever `Atoi` gives a positive number. -/
theorem formatError_of_decode_error (d : Deps) (r : Response) (e : String)
    (h : d.DecodeError r.Body = .error e) :
    formatError d r = some
      { Message := e, Description := d.StatusText r.StatusCode, Code := r.StatusCode,
        RetryAfter := if (Atoi (r.Header.Get "retry-after")).1 > 0
          then (Atoi (r.Header.Get "retry-after")).1 else 0 } := by
  unfold formatError
  rw [h]
  by_cases hp : (Atoi (r.Header.Get "retry-after")).1 > 0 <;> simp [hp]

/-- When the body decodes to an object, the record holds the two decoded
fields, an empty description, and the header value stored whenever `Atoi`
gives a positive number. -/
theorem formatError_of_decoded (d : Deps) (r : Response) (j : ErrorJSON)
    (h : d.DecodeError r.Body = .ok (some j)) :
    formatError d r = some
      { Message := j.message, Description := "", Code := j.statusCode,
        RetryAfter := if (Atoi (r.Header.Get "retry-after")).1 > 0
          then (Atoi (r.Header.Get "retry-after")).1 else 0 } := by
  unfold formatError
  rw [h]
  by_cases hp : (Atoi (r.Header.Get "retry-after")).1 > 0 <;>
    simp [hp, ErrorJSON.toRecord]

/-- When the body is the literal null, the nil pointer is returned. -/
theorem formatError_of_null (d : Deps) (r : Response)
    (h : d.DecodeError r.Body = .ok none) : formatError d r = none := by
  unfold formatError
  rw [h]
  by_cases hp : (Atoi (r.Header.Get "retry-after")).1 > 0 <;> simp [hp]

/-- C1, as stated, fails: the 429 with a plain-text body and `retry-after: 5`
does not decode, and the record returned has RetryAfter 5, not 0. -/
theorem C1_fallback_retry_after_counterexample :
    rateLimitedText.StatusCode ≠ 200 ∧
    (∃ e, mock.DecodeError rateLimitedText.Body = .error e) ∧
    (formatError mock rateLimitedText).map
        (fun a => (a.Description, a.Code, a.RetryAfter)) =
      some ("Too Many Requests", 429, 5) := by
  refine ⟨by decide, ⟨"invalid JSON", by decide⟩, by decide⟩

/-- C1 amended: for a non-200 response whose body fails to decode, the record
returned by formatError has RetryAfter n when strconv.Atoi gives a positive n
for the retry-after header, and RetryAfter 0 otherwise. -/
theorem C1_fallback_retry_after (d : Deps) (r : Response) (e : String)
    (hs : r.StatusCode ≠ 200) (h : d.DecodeError r.Body = .error e) :
    ∃ a, formatError d r = some a ∧
      (0 < (Atoi (r.Header.Get "retry-after")).1 →
        a.RetryAfter = (Atoi (r.Header.Get "retry-after")).1) ∧
      ((Atoi (r.Header.Get "retry-after")).1 ≤ 0 → a.RetryAfter = 0) := by
  have _ := hs
  refine ⟨_, formatError_of_decode_error d r e h, ?_, ?_⟩
  · intro hp
    simp [hp]
  · intro hp
    simp [not_lt.mpr hp]

/-- The amended C1 at the plain-text 429, whose header gives 5. -/
theorem C1_fallback_retry_after_witness :
    (∃ a, formatError mock rateLimitedText = some a ∧
      (0 < (Atoi (rateLimitedText.Header.Get "retry-after")).1 →
        a.RetryAfter = (Atoi (rateLimitedText.Header.Get "retry-after")).1) ∧
      ((Atoi (rateLimitedText.Header.Get "retry-after")).1 ≤ 0 → a.RetryAfter = 0)) ∧
    Atoi (rateLimitedText.Header.Get "retry-after") = (5, none) :=
  ⟨C1_fallback_retry_after mock rateLimitedText _ (by decide)
    (by decide : mock.DecodeError rateLimitedText.Body = .error "invalid JSON"),
   by decide⟩

/-- C2, as stated, fails: the 503 whose body is the error object of a 429
decodes, and the record returned has Code 429, not the status code 503. -/
theorem C2_code_is_status_counterexample :
    relayed.StatusCode = 503 ∧
    formatError mock relayed = some
      { Message := "rate limited", Description := "", Code := 429, RetryAfter := 0 } := by
  refine ⟨by decide, by decide⟩

/-- C2 amended: for a non-200 response, the Code of the record returned by
formatError is the HTTP status code when the body fails to decode, and the
`statusCode` value decoded from the body when the body decodes to an
object. -/
theorem C2_code_source (d : Deps) (r : Response) (hs : r.StatusCode ≠ 200) :
    (∀ e, d.DecodeError r.Body = .error e →
      ∃ a, formatError d r = some a ∧ a.Code = r.StatusCode) ∧
    (∀ j, d.DecodeError r.Body = .ok (some j) →
      ∃ a, formatError d r = some a ∧ a.Code = j.statusCode) := by
  have _ := hs
  exact ⟨fun e h => ⟨_, formatError_of_decode_error d r e h, rfl⟩,
    fun j h => ⟨_, formatError_of_decoded d r j h, rfl⟩⟩

/-- The amended C2 at the plain-text 429, where the decode fails and the code
is the status code. -/
theorem C2_code_source_witness :
    ∃ a, formatError mock rateLimitedText = some a ∧ a.Code = 429 :=
  (C2_code_source mock rateLimitedText (by decide)).1 _
    (by decide : mock.DecodeError rateLimitedText.Body = .error "invalid JSON")

/-- C3: for a non-200 response whose body decodes to message m and statusCode
c and whose retry-after header parses as a positive integer n, formatError
returns the record with Message m, Code c and RetryAfter n. -/
theorem C3_decoded_with_retry_after (d : Deps) (r : Response) (m : String) (c n : Int)
    (hs : r.StatusCode ≠ 200)
    (hd : d.DecodeError r.Body = .ok (some { message := m, statusCode := c }))
    (hn : Atoi (r.Header.Get "retry-after") = (n, none)) (hpos : 0 < n) :
    formatError d r = some { Message := m, Description := "", Code := c, RetryAfter := n } := by
  have _ := hs
  rw [formatError_of_decoded d r _ hd, hn]
  simp [hpos]

/-- C3 at the example of the specification: the body
`{"message":"rate limited","statusCode":429}` with `retry-after: 5`. -/
theorem C3_decoded_with_retry_after_witness :
    formatError mock rateLimited = some
      { Message := "rate limited", Description := "", Code := 429, RetryAfter := 5 } :=
  C3_decoded_with_retry_after mock rateLimited "rate limited" 429 5
    (by decide) (by decide) (by decide) (by decide)

/-- C10 fails on the code: for the 503 whose body is `null` the decode
succeeds with a nil pointer, formatError returns nil although the header value
is positive, rendering the error dereferences nil, and GetBreachedSite hands
its caller an error that wraps the nil pointer. -/
theorem C10_null_body_returns_nil :
    nullBody.StatusCode ≠ 200 ∧
    mock.DecodeError nullBody.Body = .ok none ∧
    formatError mock nullBody = none ∧
    HIBPErrorResponse.Error (formatError mock nullBody) = none ∧
    (GetBreachedSite (answering nullBody) (New "1234") "Adobe").err = some (.remote none) := by
  refine ⟨by decide, by decide, by decide, by decide, by decide⟩

/-! ## Theorems: validateEmail -/

/-- The byte length is at least the number of characters. -/
theorem length_le_utf8ByteSize_go (cs : List Char) : cs.length ≤ String.utf8ByteSize.go cs := by
  induction cs with
  | nil => simp [String.utf8ByteSize.go]
  | cons c cs ih =>
    have := Char.utf8Size_pos c
    simp only [String.utf8ByteSize.go, List.length_cons]
    omega

theorem length_le_utf8ByteSize (s : String) : s.length ≤ s.utf8ByteSize := by
  cases s with
  | mk cs => exact length_le_utf8ByteSize_go cs

theorem Split_of_not_mem (sep : Char) (l : List Char) (h : sep ∉ l) : Split sep l = [l] := by
  induction l with
  | nil => rfl
  | cons c cs ih =>
    have hc : c ≠ sep := fun e => h (by simp [e])
    have hcs : sep ∉ cs := fun e => h (by simp [e])
    simp [Split, hc, ih hcs]

theorem Split_append (sep : Char) (l r : List Char) (h : sep ∉ l) :
    Split sep (l ++ sep :: r) = l :: Split sep r := by
  induction l with
  | nil => simp [Split]
  | cons c cs ih =>
    have hc : c ≠ sep := fun e => h (by simp [e])
    have hcs : sep ∉ cs := fun e => h (by simp [e])
    simp [Split, hc, ih hcs]

section PatternLemmas
open RegularExpression

theorem charClass_matches (cs : List Char) (c : Char) (h : c ∈ cs) :
    [c] ∈ (charClass cs).matches' := by
  induction cs with
  | nil => simp at h
  | cons a as ih =>
    simp only [charClass, List.foldr_cons, matches'_add, matches'_char, Language.mem_add]
    rcases List.mem_cons.mp h with e | e
    · left
      rw [e]
      rfl
    · right
      exact ih e

theorem star_charClass_matches (cs w : List Char) (h : ∀ c ∈ w, c ∈ cs) :
    w ∈ (star (charClass cs)).matches' := by
  rw [matches'_star]
  have hw : w = (w.map fun c => [c]).flatten := by
    induction w with
    | nil => rfl
    | cons a as ih =>
      simp only [List.map_cons, List.flatten_cons, List.singleton_append, List.cons.injEq,
        true_and]
      exact ih (fun c hc => h c (List.mem_cons_of_mem _ hc))
  rw [hw]
  apply Language.join_mem_kstar
  intro y hy
  obtain ⟨c, hc, rfl⟩ := List.mem_map.mp hy
  exact charClass_matches cs c (h c hc)

theorem plus1_charClass_matches (cs w : List Char) (hne : w ≠ []) (h : ∀ c ∈ w, c ∈ cs) :
    w ∈ (plus1 (charClass cs)).matches' := by
  cases w with
  | nil => exact absurd rfl hne
  | cons a as =>
    unfold plus1
    rw [matches'_mul]
    exact Language.append_mem_mul (a := [a]) (charClass_matches cs a (h a (by simp)))
      (star_charClass_matches cs as (fun c hc => h c (List.mem_cons_of_mem _ hc)))

theorem upTo_charClass_matches (cs : List Char) (n : Nat) (w : List Char) (hlen : w.length ≤ n)
    (h : ∀ c ∈ w, c ∈ cs) : w ∈ (upTo (charClass cs) n).matches' := by
  induction n generalizing w with
  | zero =>
    have : w = [] := List.length_eq_zero.mp (Nat.le_zero.mp hlen)
    subst this
    simp [upTo]
  | succ n ih =>
    cases w with
    | nil => simp [upTo, Language.mem_add]
    | cons a as =>
      simp only [upTo, matches'_add, matches'_mul, Language.mem_add]
      right
      exact Language.append_mem_mul (a := [a]) (charClass_matches cs a (h a (by simp)))
        (ih as (by simpa using hlen) (fun c hc => h c (List.mem_cons_of_mem _ hc)))

theorem repeatRange_charClass_matches (cs : List Char) (lo hi : Nat) (w : List Char)
    (hlo : lo ≤ w.length) (hhi : w.length ≤ hi) (h : ∀ c ∈ w, c ∈ cs) :
    w ∈ (repeatRange (charClass cs) lo hi).matches' := by
  induction lo generalizing w hi with
  | zero => exact upTo_charClass_matches cs hi w hhi h
  | succ lo ih =>
    cases w with
    | nil => simp at hlo
    | cons a as =>
      simp only [repeatRange, matches'_mul]
      refine Language.append_mem_mul (a := [a]) (charClass_matches cs a (h a (by simp)))
        (ih (hi - 1) as (by simpa using hlo) ?_ (fun c hc => h c (List.mem_cons_of_mem _ hc)))
      simp only [List.length_cons] at hhi
      omega

/-- A domain made of groups, a second-to-last label and a last label of the
right alphabets and lengths matches the pattern. -/
theorem Domain_matches (groups : List (List Char)) (penult last : List Char)
    (hgroups : ∀ g ∈ groups, g ≠ [] ∧ ∀ c ∈ g, c ∈ '_' :: '-' :: alnumLower)
    (hpenult : penult ≠ [] ∧ ∀ c ∈ penult, c ∈ '-' :: alnumLower)
    (hlast : 2 ≤ last.length ∧ last.length ≤ 63 ∧ ∀ c ∈ last, c ∈ '-' :: alnumLower) :
    Domain.rmatch ((groups.map fun g => g ++ ['.']).flatten ++ (penult ++ '.' :: last)) = true := by
  rw [rmatch_iff_matches']
  unfold Domain
  rw [matches'_mul, matches'_mul, matches'_mul, matches'_star]
  refine Language.append_mem_mul ?_ ?_
  · apply Language.join_mem_kstar
    intro y hy
    obtain ⟨g, hg, rfl⟩ := List.mem_map.mp hy
    rw [matches'_mul]
    exact Language.append_mem_mul
      (plus1_charClass_matches _ g (hgroups g hg).1 (hgroups g hg).2) (Set.mem_singleton _)
  · have : penult ++ '.' :: last = (penult ++ ['.']) ++ last := by simp
    rw [this]
    refine Language.append_mem_mul (Language.append_mem_mul
      (plus1_charClass_matches _ penult hpenult.1 hpenult.2) (Set.mem_singleton _)) ?_
    exact repeatRange_charClass_matches _ 2 63 last hlast.1 hlast.2.1 hlast.2.2

end PatternLemmas

theorem lowerOrDigit_mem (c : Char) (h : c.isLower = true ∨ c.isDigit = true) :
    c ∈ alnumLower := by
  have key : ∀ n : Fin 128, ((Char.ofNat n).isLower = true ∨ (Char.ofNat n).isDigit = true) →
      Char.ofNat n ∈ alnumLower := by decide
  have hlt : c.toNat < 128 := by
    rcases h with h | h
    · simp only [Char.isLower, Bool.and_eq_true, decide_eq_true_eq] at h
      have := h.2
      change c.val.toNat ≤ 122 at this
      change c.val.toNat < 128
      omega
    · simp only [Char.isDigit, Bool.and_eq_true, decide_eq_true_eq] at h
      have := h.2
      change c.val.toNat ≤ 57 at this
      change c.val.toNat < 128
      omega
  have := key ⟨c.toNat, hlt⟩
  simp only [Char.ofNat_toNat] at this
  exact this h

/-- Once the length check passed, a string that does not split into two parts
at `@` gets one of the two malformed-address errors. -/
theorem validateEmail_of_no_split (d : Deps) (value : String)
    (h1 : ¬(value.utf8ByteSize < 6 ∨ value.utf8ByteSize > 150))
    (h2 : (Split '@' value.data).length ≠ 2) :
    validateEmail d value =
      if d.ParseAddress value then some (.text "email cannot split to local and domain parts")
      else some (.text "email not valid") := by
  unfold validateEmail
  rw [if_neg h1]
  cases hp : d.ParseAddress value
  · simp
  · simp only [Bool.not_true, Bool.false_eq_true, if_false, if_true]
    split
    · rename_i loc domain heq
      exact absurd (by rw [heq]; rfl) h2
    · rfl

/-- An accepted string `loc@dom` with one `@`: what is left of validateEmail
after the split. -/
theorem validateEmail_of_split (d : Deps) (loc dom : List Char)
    (hlen : 6 ≤ byteLen (loc ++ '@' :: dom) ∧ byteLen (loc ++ '@' :: dom) ≤ 150)
    (hparse : d.ParseAddress (String.mk (loc ++ '@' :: dom)) = true)
    (hat : '@' ∉ loc ∧ '@' ∉ dom) :
    validateEmail d (String.mk (loc ++ '@' :: dom)) =
      if byteLen loc > 64 then
        some (.text "length of local part should be max 64 characters")
      else if ' ' ∈ loc then
        some (.text "not an email pattern (bad local part)")
      else if !rDomainMatchString (ToLower d dom) then
        match d.ToASCII (String.mk dom) with
        | .error _ => some (.text "not an email pattern (bad domain)")
        | .ok punyEncoded =>
          if !rDomainMatchString punyEncoded then
            some (.text "not an email pattern (bad domain)")
          else none
      else none := by
  have h1 : ¬((String.mk (loc ++ '@' :: dom)).utf8ByteSize < 6 ∨
      (String.mk (loc ++ '@' :: dom)).utf8ByteSize > 150) := by
    unfold byteLen at hlen
    omega
  have hs : Split '@' (loc ++ '@' :: dom) = [loc, dom] := by
    rw [Split_append _ _ _ hat.1, Split_of_not_mem _ _ hat.2]
  unfold validateEmail
  rw [if_neg h1]
  simp only [hparse, Bool.not_true, Bool.false_eq_true, if_false, hs]

/-- C4, as stated, fails: the string of five `é` has 5 characters and 10
bytes; it passes the length check and is rejected as not valid, and no
behaviour of the packages makes validateEmail answer with the length error. -/
theorem C4_length_counterexample :
    "ééééé".length = 5 ∧
    validateEmail mock "ééééé" = some (.text "email not valid") ∧
    ∀ d : Deps, validateEmail d "ééééé" ≠ some (.text "email length must be from 6 to 150") := by
  refine ⟨by decide, by decide, fun d => ?_⟩
  rw [validateEmail_of_no_split d _ (by decide) (by decide)]
  cases d.ParseAddress "ééééé" <;> simp

/-- C4 amended: validateEmail fails with the length error exactly for the
strings whose length in UTF-8 bytes is less than 6 or greater than 150; every
string of more than 150 characters is one of them. -/
theorem C4_length (d : Deps) (value : String) :
    (validateEmail d value = some (.text "email length must be from 6 to 150") ↔
      (value.utf8ByteSize < 6 ∨ 150 < value.utf8ByteSize)) ∧
    (150 < value.length →
      validateEmail d value = some (.text "email length must be from 6 to 150")) := by
  have hpos : value.utf8ByteSize < 6 ∨ 150 < value.utf8ByteSize →
      validateEmail d value = some (.text "email length must be from 6 to 150") := by
    intro h1
    unfold validateEmail
    rw [if_pos h1]
  refine ⟨⟨fun h => ?_, hpos⟩, fun h => hpos ?_⟩
  · by_contra hc
    unfold validateEmail at h
    rw [if_neg hc] at h
    split_ifs at h
    · simp at h
    · split at h
      · split_ifs at h
        · simp at h
        · simp at h
        · split at h
          · simp at h
          · split_ifs at h
            simp at h
      · simp at h
  · have hle := length_le_utf8ByteSize value
    omega

/-- The amended C4 at a string of five bytes and at the string of five `é`,
whose ten bytes pass the length check. -/
theorem C4_length_witness :
    validateEmail mock "a@b.c" = some (.text "email length must be from 6 to 150") ∧
    validateEmail mock "ééééé" ≠ some (.text "email length must be from 6 to 150") :=
  ⟨(C4_length mock "a@b.c").1.mpr (by decide),
   fun h => absurd ((C4_length mock "ééééé").1.mp h) (by decide)⟩

/-- C5, as stated, fails: the string has no `@`; it is rejected as not valid,
and no behaviour of the mailbox parser makes validateEmail answer with the
local-part error. -/
theorem C5_space_counterexample :
    validateEmail mock "info example.com" = some (.text "email not valid") ∧
    ∀ d : Deps, validateEmail d "info example.com" ≠
      some (.text "not an email pattern (bad local part)") := by
  refine ⟨by decide, fun d => ?_⟩
  rw [validateEmail_of_no_split d _ (by decide) (by decide)]
  cases d.ParseAddress "info example.com" <;> simp

/-- C5 amended: "info example.com" fails with "email not valid" when the
mailbox parser rejects it and with "email cannot split to local and domain
parts" when the parser accepts it; the local-part error is the answer for an
accepted string of 6 to 150 bytes with one `@` whose local part is at most 64
bytes long and holds a space. -/
theorem C5_space (d : Deps) :
    (validateEmail d "info example.com" =
      if d.ParseAddress "info example.com" then
        some (.text "email cannot split to local and domain parts")
      else some (.text "email not valid")) ∧
    ∀ loc dom : List Char,
      6 ≤ byteLen (loc ++ '@' :: dom) ∧ byteLen (loc ++ '@' :: dom) ≤ 150 →
      d.ParseAddress (String.mk (loc ++ '@' :: dom)) = true →
      '@' ∉ loc ∧ '@' ∉ dom → byteLen loc ≤ 64 → ' ' ∈ loc →
      validateEmail d (String.mk (loc ++ '@' :: dom)) =
        some (.text "not an email pattern (bad local part)") := by
  refine ⟨validateEmail_of_no_split d _ (by decide) (by decide), ?_⟩
  intro loc dom hlen hparse hat hloc hsp
  rw [validateEmail_of_split d loc dom hlen hparse hat, if_neg (by omega), if_pos hsp]

/-- The amended C5 at the mock collaborators: the string without `@`, and a
quoted local part with a space. -/
theorem C5_space_witness :
    validateEmail mock "info example.com" = some (.text "email not valid") ∧
    validateEmail mock "\"in fo\"@example.com" =
      some (.text "not an email pattern (bad local part)") :=
  ⟨(C5_space mock).1,
   (C5_space mock).2 "\"in fo\"".data "example.com".data (by decide) (by decide) (by decide)
     (by decide) (by decide)⟩

set_option maxRecDepth 100000 in
/-- C6, as stated, fails: each of the three addresses passes rules 1 to 5 and
has a domain of the shape of rule 6 as worded (a single label; an underscore
in the second-to-last label; an underscore in the last label), and
validateEmail rejects its domain. -/
theorem C6_domain_pattern_counterexample :
    (specRules1to5 mock "user@localhost" = true ∧
      specDomainShape (ToLower mock "localhost".data).data = true ∧
      validateEmail mock "user@localhost" =
        some (.text "not an email pattern (bad domain)")) ∧
    (specRules1to5 mock "user@my_host.example" = true ∧
      specDomainShape (ToLower mock "my_host.example".data).data = true ∧
      validateEmail mock "user@my_host.example" =
        some (.text "not an email pattern (bad domain)")) ∧
    (specRules1to5 mock "user@host.my_example" = true ∧
      specDomainShape (ToLower mock "host.my_example".data).data = true ∧
      validateEmail mock "user@host.my_example" =
        some (.text "not an email pattern (bad domain)")) := by
  refine ⟨⟨by decide, by decide, by decide⟩, ⟨by decide, by decide, by decide⟩,
    ⟨by decide, by decide, by decide⟩⟩

/-- C6 amended: an address `loc@dom` of 6 to 150 bytes that the mailbox parser
accepts, with one `@` and a local part of at most 64 bytes without a space,
passes validateEmail when its lower-cased domain consists of zero or more
`label.` groups of `a-z`, digits, hyphen and underscore, then one `label.`
group of `a-z`, digits and hyphen, then a final label of 2 to 63 characters
of `a-z`, digits and hyphen, every label non-empty. -/
theorem C6_domain_pattern (d : Deps) (loc dom : List Char) (groups : List (List Char))
    (penult final : List Char)
    (hlen : 6 ≤ byteLen (loc ++ '@' :: dom) ∧ byteLen (loc ++ '@' :: dom) ≤ 150)
    (hparse : d.ParseAddress (String.mk (loc ++ '@' :: dom)) = true)
    (hat : '@' ∉ loc ∧ '@' ∉ dom)
    (hloc : byteLen loc ≤ 64 ∧ ' ' ∉ loc)
    (hdom : (ToLower d dom).data =
      (groups.map fun g => g ++ ['.']).flatten ++ (penult ++ '.' :: final))
    (hgroups : ∀ g ∈ groups, g ≠ [] ∧
      ∀ c ∈ g, c.isLower = true ∨ c.isDigit = true ∨ c = '-' ∨ c = '_')
    (hpenult : penult ≠ [] ∧ ∀ c ∈ penult, c.isLower = true ∨ c.isDigit = true ∨ c = '-')
    (hfinal : 2 ≤ final.length ∧ final.length ≤ 63 ∧
      ∀ c ∈ final, c.isLower = true ∨ c.isDigit = true ∨ c = '-') :
    validateEmail d (String.mk (loc ++ '@' :: dom)) = none := by
  have narrow : ∀ c : Char, c.isLower = true ∨ c.isDigit = true ∨ c = '-' →
      c ∈ '-' :: alnumLower := by
    intro c hc
    rcases hc with h | h | h
    · exact List.mem_cons_of_mem _ (lowerOrDigit_mem c (Or.inl h))
    · exact List.mem_cons_of_mem _ (lowerOrDigit_mem c (Or.inr h))
    · simp [h]
  have wide : ∀ c : Char, c.isLower = true ∨ c.isDigit = true ∨ c = '-' ∨ c = '_' →
      c ∈ '_' :: '-' :: alnumLower := by
    intro c hc
    rcases hc with h | h | h | h
    · exact List.mem_cons_of_mem _ (narrow c (Or.inl h))
    · exact List.mem_cons_of_mem _ (narrow c (Or.inr (Or.inl h)))
    · exact List.mem_cons_of_mem _ (narrow c (Or.inr (Or.inr h)))
    · simp [h]
  have hm : rDomainMatchString (ToLower d dom) = true := by
    unfold rDomainMatchString
    rw [hdom]
    exact Domain_matches groups penult final
      (fun g hg => ⟨(hgroups g hg).1, fun c hc => wide c ((hgroups g hg).2 c hc)⟩)
      ⟨hpenult.1, fun c hc => narrow c (hpenult.2 c hc)⟩
      ⟨hfinal.1, hfinal.2.1, fun c hc => narrow c (hfinal.2.2 c hc)⟩
  rw [validateEmail_of_split d loc dom hlen hparse hat, if_neg (by omega), if_neg hloc.2, hm]
  rfl

/-- The amended C6 at "info@example.com" of the tests, and at a domain with an
underscore in an earlier label and upper-case letters. -/
theorem C6_domain_pattern_witness :
    validateEmail mock "info@example.com" = none ∧
    validateEmail mock "User@a_b.Host.Example" = none :=
  ⟨C6_domain_pattern mock "info".data "example.com".data [] "example".data "com".data
    (by decide) (by decide) (by decide) (by decide) (by decide) (by simp)
    (by decide) (by decide),
   C6_domain_pattern mock "User".data "a_b.Host.Example".data ["a_b".data] "host".data
    "example".data (by decide) (by decide) (by decide) (by decide) (by decide) (by decide)
    (by decide) (by decide)⟩

/-! ## Theorems: the operations -/

/-- C8: when validateEmail returns an error for the email, GetBreachedAccount
and GetPastedAccount return that error with a nil result and hand no request
to the transport. -/
theorem C8_validation_error_no_request (d : Deps) (o : HaveIBeenPwned) (email domain : String)
    (truncateResponse includeUnverified : Bool) (err : Error)
    (h : validateEmail d email = some err) :
    GetBreachedAccount d o email domain truncateResponse includeUnverified =
      { value := none, err := some err, sent := [] } ∧
    GetPastedAccount d o email = { value := none, err := some err, sent := [] } := by
  constructor
  · unfold GetBreachedAccount
    rw [h]
  · unfold GetPastedAccount
    rw [h]

/-- C8 at an address without `@`, for the client of the tests. -/
theorem C8_validation_error_no_request_witness :
    GetBreachedAccount mock (New "1234") "info example.com" "" true false =
      { value := none, err := some (.text "email not valid"), sent := [] } ∧
    GetPastedAccount mock (New "1234") "info example.com" =
      { value := none, err := some (.text "email not valid"), sent := [] } :=
  C8_validation_error_no_request mock (New "1234") "info example.com" "" true false
    (.text "email not valid") (by decide)

/-- The headers set by `request` for a call with the access-key option. -/
theorem request_sent_with_key (d : Deps) (o : HaveIBeenPwned) (resource : String)
    (params : Option Values) (req : Request)
    (h : req ∈ (request d o resource params [useAccessKey]).2) :
    ∃ u, d.baseURLParse resource = .ok u ∧
      req = { Method := "GET", URL := target u params,
              Header := [("Hibp-Api-Key", [o.accessKey]), ("User-Agent", [UserAgent]),
                ("Accept", [Accept])],
              Close := true } := by
  unfold request at h
  cases hb : d.baseURLParse resource with
  | error e => simp [hb] at h
  | ok u =>
    refine ⟨u, rfl, ?_⟩
    have hopt : ((String.intercalate "," [useAccessKey]).utf8ByteSize > 0 ∧
        Contains (String.intercalate "," [useAccessKey]) useAccessKey = true) := by decide
    have k1 : CanonicalMIMEHeaderKey "accept" = "Accept" := by decide
    have k2 : CanonicalMIMEHeaderKey "user-agent" = "User-Agent" := by decide
    have k3 : CanonicalMIMEHeaderKey "hibp-api-key" = "Hibp-Api-Key" := by decide
    simp only [hb] at h
    cases hn : d.NewRequest (target u params) with
    | some e => simp [hn] at h
    | none =>
      simp only [hn, hopt, and_self, if_true, Header.Set, k1, k2, k3] at h
      split at h <;> simp at h <;> rw [h]

/-- The headers set by `request` for a call without option. -/
theorem request_sent_without_key (d : Deps) (o : HaveIBeenPwned) (resource : String)
    (params : Option Values) (req : Request)
    (h : req ∈ (request d o resource params []).2) :
    ∃ u, d.baseURLParse resource = .ok u ∧
      req = { Method := "GET", URL := target u params,
              Header := [("User-Agent", [UserAgent]), ("Accept", [Accept])],
              Close := true } := by
  unfold request at h
  cases hb : d.baseURLParse resource with
  | error e => simp [hb] at h
  | ok u =>
    refine ⟨u, rfl, ?_⟩
    have hopt : ¬((String.intercalate "," []).utf8ByteSize > 0 ∧
        Contains (String.intercalate "," []) useAccessKey = true) := by decide
    have k1 : CanonicalMIMEHeaderKey "accept" = "Accept" := by decide
    have k2 : CanonicalMIMEHeaderKey "user-agent" = "User-Agent" := by decide
    simp only [hb] at h
    cases hn : d.NewRequest (target u params) with
    | some e => simp [hn] at h
    | none =>
      simp only [hn, hopt, if_false, Header.Set, k1, k2] at h
      split at h <;> simp at h <;> rw [h]

theorem GetBreachedAccount_sent (d : Deps) (o : HaveIBeenPwned) (email domain : String)
    (truncateResponse includeUnverified : Bool) (req : Request)
    (h : req ∈ (GetBreachedAccount d o email domain truncateResponse includeUnverified).sent) :
    req ∈ (request d o ("breachedaccount/" ++ email)
      (some (((if domain ≠ "" then Values.Set [] "domain" domain else []).Set "truncateResponse"
        (FormatBool truncateResponse)).Set "includeUnverified" (FormatBool includeUnverified)))
      [useAccessKey]).2 := by
  unfold GetBreachedAccount at h
  split at h
  · simp at h
  · simp only at h
    generalize request d o ("breachedaccount/" ++ email) _ [useAccessKey] = r at h ⊢
    obtain ⟨res, sent⟩ := r
    cases res with
    | error e => exact h
    | ok resp =>
      simp only at h
      split at h <;> exact h

theorem GetPastedAccount_sent (d : Deps) (o : HaveIBeenPwned) (email : String) (req : Request)
    (h : req ∈ (GetPastedAccount d o email).sent) :
    req ∈ (request d o ("pasteaccount/" ++ email) none [useAccessKey]).2 := by
  unfold GetPastedAccount at h
  split at h
  · simp at h
  · split at h
    · rename_i heq; rw [heq]; exact h
    · split at h
      · rename_i heq _; rw [heq]; exact h
      · rename_i heq _; rw [heq]; exact h

theorem GetBreaches_sent (d : Deps) (o : HaveIBeenPwned) (domain : String) (req : Request)
    (h : req ∈ (GetBreaches d o domain).sent) :
    req ∈ (request d o "breaches"
      (some (if domain ≠ "" then Values.Set [] "domain" domain else [])) []).2 := by
  unfold GetBreaches at h
  simp only at h
  split at h
  · rename_i heq; rw [heq]; exact h
  · split at h
    · rename_i heq _; rw [heq]; exact h
    · rename_i heq _; rw [heq]; exact h

theorem GetBreachedSite_sent (d : Deps) (o : HaveIBeenPwned) (site : String) (req : Request)
    (h : req ∈ (GetBreachedSite d o site).sent) :
    req ∈ (request d o ("breach/" ++ site) none []).2 := by
  unfold GetBreachedSite at h
  split at h
  · rename_i heq; rw [heq]; exact h
  · split at h
    · rename_i heq _; rw [heq]; exact h
    · rename_i heq _; rw [heq]; exact h

theorem GetDataClasses_sent (d : Deps) (o : HaveIBeenPwned) (req : Request)
    (h : req ∈ (GetDataClasses d o).sent) :
    req ∈ (request d o "dataclasses" none []).2 := by
  unfold GetDataClasses at h
  split at h
  · rename_i heq; rw [heq]; exact h
  · split at h
    · rename_i heq _; rw [heq]; exact h
    · rename_i heq _; rw [heq]; exact h

/-- Header reads on the request built with the access key. -/
theorem headers_with_key (k : String) (u : String) (params : Option Values) (req : Request)
    (h : req = { Method := "GET", URL := target u params,
                 Header := [("Hibp-Api-Key", [k]), ("User-Agent", [UserAgent]),
                   ("Accept", [Accept])],
                 Close := true }) :
    req.Method = "GET" ∧ req.Header.Has "hibp-api-key" = true ∧
      req.Header.Get "hibp-api-key" = k ∧ req.Header.Get "accept" = "application/json" ∧
      req.Header.Get "user-agent" = "haveibeenpwned-client/v0.1" := by
  have k1 : CanonicalMIMEHeaderKey "accept" = "Accept" := by decide
  have k2 : CanonicalMIMEHeaderKey "user-agent" = "User-Agent" := by decide
  have k3 : CanonicalMIMEHeaderKey "hibp-api-key" = "Hibp-Api-Key" := by decide
  subst h
  refine ⟨rfl, ?_, ?_, ?_, ?_⟩
  · simp [Header.Has, k3, List.lookup]
  · simp [Header.Get, k3, List.lookup]
  · simp only [Header.Get, k1]
    rfl
  · simp only [Header.Get, k2]
    rfl

/-- Header reads on the request built without the access key. -/
theorem headers_without_key (u : String) (params : Option Values) (req : Request)
    (h : req = { Method := "GET", URL := target u params,
                 Header := [("User-Agent", [UserAgent]), ("Accept", [Accept])],
                 Close := true }) :
    req.Method = "GET" ∧ req.Header.Has "hibp-api-key" = false ∧
      req.Header.Get "accept" = "application/json" ∧
      req.Header.Get "user-agent" = "haveibeenpwned-client/v0.1" := by
  have k1 : CanonicalMIMEHeaderKey "accept" = "Accept" := by decide
  have k2 : CanonicalMIMEHeaderKey "user-agent" = "User-Agent" := by decide
  have k3 : CanonicalMIMEHeaderKey "hibp-api-key" = "Hibp-Api-Key" := by decide
  subst h
  refine ⟨rfl, ?_, ?_, ?_⟩
  · simp only [Header.Has, k3]
    rfl
  · simp only [Header.Get, k1]
    rfl
  · simp only [Header.Get, k2]
    rfl

/-- A call of `request` whose resource resolves and whose target is accepted
by `http.NewRequestWithContext` hands exactly one request to the transport. -/
theorem request_sent_of_ok (d : Deps) (o : HaveIBeenPwned) (resource : String)
    (params : Option Values) (opt : List String) (u : String)
    (hb : d.baseURLParse resource = .ok u) (hn : d.NewRequest (target u params) = none) :
    ∃ req, (request d o resource params opt).2 = [req] := by
  unfold request
  simp only [hb, hn]
  split <;> exact ⟨_, rfl⟩

theorem GetBreachedAccount_sent_eq (d : Deps) (o : HaveIBeenPwned) (email domain : String)
    (truncateResponse includeUnverified : Bool) (hv : validateEmail d email = none) :
    (GetBreachedAccount d o email domain truncateResponse includeUnverified).sent =
      (request d o ("breachedaccount/" ++ email)
        (some (((if domain ≠ "" then Values.Set [] "domain" domain else []).Set
          "truncateResponse" (FormatBool truncateResponse)).Set "includeUnverified"
          (FormatBool includeUnverified)))
        [useAccessKey]).2 := by
  unfold GetBreachedAccount
  rw [hv]
  simp only
  generalize request d o ("breachedaccount/" ++ email) _ [useAccessKey] = r
  obtain ⟨res, sent⟩ := r
  cases res with
  | error e => rfl
  | ok resp =>
    simp only
    split <;> rfl

theorem GetPastedAccount_sent_eq (d : Deps) (o : HaveIBeenPwned) (email : String)
    (hv : validateEmail d email = none) :
    (GetPastedAccount d o email).sent =
      (request d o ("pasteaccount/" ++ email) none [useAccessKey]).2 := by
  unfold GetPastedAccount
  rw [hv]
  simp only
  generalize request d o ("pasteaccount/" ++ email) none [useAccessKey] = r
  obtain ⟨res, sent⟩ := r
  cases res with
  | error e => rfl
  | ok resp =>
    simp only
    split <;> rfl

theorem GetBreaches_sent_eq (d : Deps) (o : HaveIBeenPwned) (domain : String) :
    (GetBreaches d o domain).sent =
      (request d o "breaches"
        (some (if domain ≠ "" then Values.Set [] "domain" domain else [])) []).2 := by
  unfold GetBreaches
  simp only
  generalize request d o "breaches" _ [] = r
  obtain ⟨res, sent⟩ := r
  cases res with
  | error e => rfl
  | ok resp =>
    simp only
    split <;> rfl

theorem GetBreachedSite_sent_eq (d : Deps) (o : HaveIBeenPwned) (site : String) :
    (GetBreachedSite d o site).sent = (request d o ("breach/" ++ site) none []).2 := by
  unfold GetBreachedSite
  generalize request d o ("breach/" ++ site) none [] = r
  obtain ⟨res, sent⟩ := r
  cases res with
  | error e => rfl
  | ok resp =>
    simp only
    split <;> rfl

theorem GetDataClasses_sent_eq (d : Deps) (o : HaveIBeenPwned) :
    (GetDataClasses d o).sent = (request d o "dataclasses" none []).2 := by
  unfold GetDataClasses
  generalize request d o "dataclasses" none [] = r
  obtain ⟨res, sent⟩ := r
  cases res with
  | error e => rfl
  | ok resp =>
    simp only
    split <;> rfl

/-- The one request of a call with the access-key option, with its headers. -/
theorem request_one_with_key (d : Deps) (k : String) (resource : String)
    (params : Option Values) (u : String)
    (hb : d.baseURLParse resource = .ok u) (hn : d.NewRequest (target u params) = none) :
    ∃ req, (request d (New k) resource params [useAccessKey]).2 = [req] ∧
      req.URL = target u params ∧
      req.Method = "GET" ∧ req.Header.Has "hibp-api-key" = true ∧
      req.Header.Get "hibp-api-key" = k ∧ req.Header.Get "accept" = "application/json" ∧
      req.Header.Get "user-agent" = "haveibeenpwned-client/v0.1" := by
  obtain ⟨req, hreq⟩ := request_sent_of_ok d (New k) resource params [useAccessKey] u hb hn
  obtain ⟨u1, hu1, he⟩ := request_sent_with_key d (New k) resource params req
    (by rw [hreq]; exact List.mem_singleton_self req)
  have hu : u1 = u := by
    rw [hb] at hu1
    exact (Except.ok.inj hu1).symm
  subst hu
  exact ⟨req, hreq, by rw [he], headers_with_key k u1 params req he⟩

/-- The one request of a call without option, with its headers. -/
theorem request_one_without_key (d : Deps) (o : HaveIBeenPwned) (resource : String)
    (params : Option Values) (u : String)
    (hb : d.baseURLParse resource = .ok u) (hn : d.NewRequest (target u params) = none) :
    ∃ req, (request d o resource params []).2 = [req] ∧
      req.URL = target u params ∧
      req.Method = "GET" ∧ req.Header.Has "hibp-api-key" = false ∧
      req.Header.Get "accept" = "application/json" ∧
      req.Header.Get "user-agent" = "haveibeenpwned-client/v0.1" := by
  obtain ⟨req, hreq⟩ := request_sent_of_ok d o resource params [] u hb hn
  obtain ⟨u1, hu1, he⟩ := request_sent_without_key d o resource params req
    (by rw [hreq]; exact List.mem_singleton_self req)
  have hu : u1 = u := by
    rw [hb] at hu1
    exact (Except.ok.inj hu1).symm
  subst hu
  exact ⟨req, hreq, by rw [he], headers_without_key u1 params req he⟩

/-- C7: for a client built with access key k, every request handed to the
transport by GetBreachedAccount or GetPastedAccount is a GET carrying the
header hibp-api-key with value k, every request handed to the transport by
GetBreaches, GetBreachedSite or GetDataClasses is a GET without that header,
and all of them carry accept "application/json" and user-agent
"haveibeenpwned-client/v0.1".  Each operation does hand one such request to
the transport, with the target built from its resource, as soon as the email
(when it takes one) passes validateEmail, the resource resolves against the
base URL and the target is accepted by `http.NewRequestWithContext`. -/
theorem C7_request_headers (d : Deps) (k email domain site : String)
    (truncateResponse includeUnverified : Bool) :
    (∀ req,
      (req ∈ (GetBreachedAccount d (New k) email domain truncateResponse includeUnverified).sent ∨
        req ∈ (GetPastedAccount d (New k) email).sent) →
      req.Method = "GET" ∧ req.Header.Has "hibp-api-key" = true ∧
        req.Header.Get "hibp-api-key" = k ∧ req.Header.Get "accept" = "application/json" ∧
        req.Header.Get "user-agent" = "haveibeenpwned-client/v0.1") ∧
    (∀ req,
      (req ∈ (GetBreaches d (New k) domain).sent ∨ req ∈ (GetBreachedSite d (New k) site).sent ∨
        req ∈ (GetDataClasses d (New k)).sent) →
      req.Method = "GET" ∧ req.Header.Has "hibp-api-key" = false ∧
        req.Header.Get "accept" = "application/json" ∧
        req.Header.Get "user-agent" = "haveibeenpwned-client/v0.1") ∧
    (validateEmail d email = none →
      (∀ u, d.baseURLParse ("breachedaccount/" ++ email) = .ok u →
        d.NewRequest (target u (some
          (((if domain ≠ "" then Values.Set [] "domain" domain else []).Set "truncateResponse"
            (FormatBool truncateResponse)).Set "includeUnverified"
            (FormatBool includeUnverified)))) = none →
        ∃ req,
          (GetBreachedAccount d (New k) email domain truncateResponse includeUnverified).sent =
            [req] ∧
          req.URL = target u (some
            (((if domain ≠ "" then Values.Set [] "domain" domain else []).Set "truncateResponse"
              (FormatBool truncateResponse)).Set "includeUnverified"
              (FormatBool includeUnverified))) ∧
          req.Method = "GET" ∧ req.Header.Has "hibp-api-key" = true ∧
          req.Header.Get "hibp-api-key" = k ∧ req.Header.Get "accept" = "application/json" ∧
          req.Header.Get "user-agent" = "haveibeenpwned-client/v0.1") ∧
      (∀ u, d.baseURLParse ("pasteaccount/" ++ email) = .ok u → d.NewRequest u = none →
        ∃ req, (GetPastedAccount d (New k) email).sent = [req] ∧ req.URL = u ∧
          req.Method = "GET" ∧ req.Header.Has "hibp-api-key" = true ∧
          req.Header.Get "hibp-api-key" = k ∧ req.Header.Get "accept" = "application/json" ∧
          req.Header.Get "user-agent" = "haveibeenpwned-client/v0.1")) ∧
    (∀ u, d.baseURLParse "breaches" = .ok u →
      d.NewRequest (target u (some (if domain ≠ "" then Values.Set [] "domain" domain else []))) =
        none →
      ∃ req, (GetBreaches d (New k) domain).sent = [req] ∧
        req.URL = target u (some (if domain ≠ "" then Values.Set [] "domain" domain else [])) ∧
        req.Method = "GET" ∧ req.Header.Has "hibp-api-key" = false ∧
        req.Header.Get "accept" = "application/json" ∧
        req.Header.Get "user-agent" = "haveibeenpwned-client/v0.1") ∧
    (∀ u, d.baseURLParse ("breach/" ++ site) = .ok u → d.NewRequest u = none →
      ∃ req, (GetBreachedSite d (New k) site).sent = [req] ∧ req.URL = u ∧
        req.Method = "GET" ∧ req.Header.Has "hibp-api-key" = false ∧
        req.Header.Get "accept" = "application/json" ∧
        req.Header.Get "user-agent" = "haveibeenpwned-client/v0.1") ∧
    (∀ u, d.baseURLParse "dataclasses" = .ok u → d.NewRequest u = none →
      ∃ req, (GetDataClasses d (New k)).sent = [req] ∧ req.URL = u ∧
        req.Method = "GET" ∧ req.Header.Has "hibp-api-key" = false ∧
        req.Header.Get "accept" = "application/json" ∧
        req.Header.Get "user-agent" = "haveibeenpwned-client/v0.1") := by
  refine ⟨?_, ?_, ?_, ?_, ?_, ?_⟩
  · intro req h
    rcases h with h | h
    · obtain ⟨u, _, hreq⟩ := request_sent_with_key d (New k) _ _ req
        (GetBreachedAccount_sent d (New k) email domain truncateResponse includeUnverified req h)
      exact headers_with_key k u _ req hreq
    · obtain ⟨u, _, hreq⟩ := request_sent_with_key d (New k) _ _ req
        (GetPastedAccount_sent d (New k) email req h)
      exact headers_with_key k u _ req hreq
  · intro req h
    rcases h with h | h | h
    · obtain ⟨u, _, hreq⟩ := request_sent_without_key d (New k) _ _ req
        (GetBreaches_sent d (New k) domain req h)
      exact headers_without_key u _ req hreq
    · obtain ⟨u, _, hreq⟩ := request_sent_without_key d (New k) _ _ req
        (GetBreachedSite_sent d (New k) site req h)
      exact headers_without_key u _ req hreq
    · obtain ⟨u, _, hreq⟩ := request_sent_without_key d (New k) _ _ req
        (GetDataClasses_sent d (New k) req h)
      exact headers_without_key u _ req hreq
  · intro hv
    constructor
    · intro u hb hn
      rw [GetBreachedAccount_sent_eq d (New k) email domain truncateResponse includeUnverified hv]
      exact request_one_with_key d k _ _ u hb hn
    · intro u hb hn
      rw [GetPastedAccount_sent_eq d (New k) email hv]
      exact request_one_with_key d k _ none u hb hn
  · intro u hb hn
    rw [GetBreaches_sent_eq d (New k) domain]
    exact request_one_without_key d (New k) _ _ u hb hn
  · intro u hb hn
    rw [GetBreachedSite_sent_eq d (New k) site]
    exact request_one_without_key d (New k) _ none u hb hn
  · intro u hb hn
    rw [GetDataClasses_sent_eq d (New k)]
    exact request_one_without_key d (New k) _ none u hb hn

set_option maxRecDepth 100000 in
/-- C7 at the calls of the tests, for the client built with key "1234": each
of the five operations hands the transport exactly the request shown, and the
theorem gives the one request of GetPastedAccount and of GetDataClasses with
their headers. -/
theorem C7_request_headers_witness :
    (GetBreachedAccount mock (New "1234") "info@example.com" "" true false).sent =
      [{ Method := "GET",
         URL := "https://haveibeenpwned.com/api/v3/breachedaccount/info@example.com" ++
           "?includeUnverified=false&truncateResponse=true",
         Header := [("Hibp-Api-Key", ["1234"]), ("User-Agent", ["haveibeenpwned-client/v0.1"]),
           ("Accept", ["application/json"])],
         Close := true }] ∧
    (GetPastedAccount mock (New "1234") "info@example.com").sent =
      [{ Method := "GET",
         URL := "https://haveibeenpwned.com/api/v3/pasteaccount/info@example.com",
         Header := [("Hibp-Api-Key", ["1234"]), ("User-Agent", ["haveibeenpwned-client/v0.1"]),
           ("Accept", ["application/json"])],
         Close := true }] ∧
    (GetBreaches mock (New "1234") "adobe.com").sent =
      [{ Method := "GET", URL := "https://haveibeenpwned.com/api/v3/breaches?domain=adobe.com",
         Header := [("User-Agent", ["haveibeenpwned-client/v0.1"]),
           ("Accept", ["application/json"])],
         Close := true }] ∧
    (GetBreachedSite mock (New "1234") "Adobe").sent =
      [{ Method := "GET", URL := "https://haveibeenpwned.com/api/v3/breach/Adobe",
         Header := [("User-Agent", ["haveibeenpwned-client/v0.1"]),
           ("Accept", ["application/json"])],
         Close := true }] ∧
    (GetDataClasses mock (New "1234")).sent =
      [{ Method := "GET", URL := "https://haveibeenpwned.com/api/v3/dataclasses",
         Header := [("User-Agent", ["haveibeenpwned-client/v0.1"]),
           ("Accept", ["application/json"])],
         Close := true }] ∧
    (∃ req, (GetPastedAccount mock (New "1234") "info@example.com").sent = [req] ∧
      req.URL = "https://haveibeenpwned.com/api/v3/pasteaccount/info@example.com" ∧
      req.Method = "GET" ∧ req.Header.Has "hibp-api-key" = true ∧
      req.Header.Get "hibp-api-key" = "1234" ∧ req.Header.Get "accept" = "application/json" ∧
      req.Header.Get "user-agent" = "haveibeenpwned-client/v0.1") ∧
    (∃ req, (GetDataClasses mock (New "1234")).sent = [req] ∧
      req.URL = "https://haveibeenpwned.com/api/v3/dataclasses" ∧
      req.Method = "GET" ∧ req.Header.Has "hibp-api-key" = false ∧
      req.Header.Get "accept" = "application/json" ∧
      req.Header.Get "user-agent" = "haveibeenpwned-client/v0.1") :=
  ⟨by decide, by decide, by decide, by decide, by decide,
   ((C7_request_headers mock "1234" "info@example.com" "" "" true false).2.2.1
      (by decide)).2 "https://haveibeenpwned.com/api/v3/pasteaccount/info@example.com"
      (by decide) (by decide),
   (C7_request_headers mock "1234" "info@example.com" "" "" true false).2.2.2.2.2
      "https://haveibeenpwned.com/api/v3/dataclasses" (by decide) (by decide)⟩

/-- C9, as stated, fails: GetBreaches called with an empty domain hands the
transport the resolved URL of "breaches" followed by a bare `?`. -/
theorem C9_query_string_counterexample :
    mock.baseURLParse "breaches" = .ok "https://haveibeenpwned.com/api/v3/breaches" ∧
    (GetBreaches mock (New "1234") "").sent.map Request.URL =
      ["https://haveibeenpwned.com/api/v3/breaches?"] := by
  refine ⟨by decide, by decide⟩

/-- C9 amended: the target of a request handed to the transport is the
resolved URL when the params map is nil, and the resolved URL followed by `?`
and the encoded parameters when the map is not nil, empty or not; GetBreaches
always passes a map, so for an empty domain the target is the resolved URL of
"breaches" followed by a bare `?`, and for another domain it is followed by
`?domain=` and the escaped domain. -/
theorem C9_query_string (d : Deps) (o : HaveIBeenPwned) (resource : String)
    (params : Option Values) (opt : List String) (req : Request) :
    (req ∈ (request d o resource params opt).2 →
      ∃ u, d.baseURLParse resource = .ok u ∧
        ((params = none ∧ req.URL = u) ∨
          ∃ p, params = some p ∧ req.URL = u ++ "?" ++ p.Encode)) ∧
    (req ∈ (GetBreaches d o "").sent →
      ∃ u, d.baseURLParse "breaches" = .ok u ∧ req.URL = u ++ "?") ∧
    (∀ domain, domain ≠ "" → req ∈ (GetBreaches d o domain).sent →
      ∃ u, d.baseURLParse "breaches" = .ok u ∧
        req.URL = u ++ "?" ++ ("domain=" ++ QueryEscape domain)) := by
  refine ⟨?_, ?_, ?_⟩
  · intro h
    unfold request at h
    cases hb : d.baseURLParse resource with
    | error e => simp [hb] at h
    | ok u =>
      refine ⟨u, rfl, ?_⟩
      simp only [hb] at h
      cases hn : d.NewRequest (target u params) with
      | some e => simp [hn] at h
      | none =>
        simp only [hn] at h
        have hurl : req.URL = target u params := by
          split at h <;> simp at h <;> rw [h] <;> split <;> rfl
        cases params with
        | none => exact Or.inl ⟨rfl, hurl⟩
        | some p => exact Or.inr ⟨p, rfl, hurl⟩
  · intro h
    obtain ⟨u, hu, hreq⟩ := request_sent_without_key d o _ _ req (GetBreaches_sent d o "" req h)
    refine ⟨u, hu, ?_⟩
    rw [hreq]
    show target u (some (if ("" : String) ≠ "" then Values.Set [] "domain" "" else [])) = u ++ "?"
    have he : Values.Encode [] = "" := by decide
    simp [target, he]
  · intro domain hdom h
    obtain ⟨u, hu, hreq⟩ :=
      request_sent_without_key d o _ _ req (GetBreaches_sent d o domain req h)
    refine ⟨u, hu, ?_⟩
    rw [hreq]
    have hk : QueryEscape "domain" = "domain" := by decide
    simp [target, hdom, Values.Set, Values.Encode, String.intercalate, String.intercalate.go, hk]

/-- The amended C9 at the calls of the tests: a nil map, a map with one
parameter and an empty map. -/
theorem C9_query_string_witness :
    (GetBreachedSite mock (New "1234") "Adobe").sent.map Request.URL =
      ["https://haveibeenpwned.com/api/v3/breach/Adobe"] ∧
    (GetBreaches mock (New "1234") "adobe.com").sent.map Request.URL =
      ["https://haveibeenpwned.com/api/v3/breaches?domain=adobe.com"] ∧
    ∀ req, req ∈ (GetBreaches mock (New "1234") "").sent →
      ∃ u, mock.baseURLParse "breaches" = .ok u ∧ req.URL = u ++ "?" :=
  ⟨by decide, by decide, fun req h =>
    (C9_query_string mock (New "1234") "breaches" none [] req).2.1 h⟩

end Haveibeenpwned
